import Mathlib

/-!
# Ammu-Nation storefront: cart store and reservation workflow

A shallow embedding of `src/App.jsx` (the `App` component): the cart handlers
`handleAddToCart`, `handleUpdateQuantity`, `handleClearCart`, the persistence helper
`saveCart` with the hydration effect, and `handleReservationSubmit`.

Modelling conventions.

* React state (`cart`, `selectedCategory`), `localStorage`, the toasts emitted and the
  remote inserts issued are the fields of one explicit `AppState`; a handler is a function
  from the state it closes over to the state after it ran.
* A JavaScript exception is the `.error` branch of `Except`.
* A JavaScript Number is a `JSNumber`: `NaN`, the two infinities, or a finite value. Finite
  values are integers; a price with a fractional part has no value here. `parseInt`, multiplication and the addition that accumulates the
  order's cost round to the nearest double (ties to even) and overflow to an infinity, as
  IEEE-754 arithmetic does on integer-valued doubles. The increment of a quantity by one
  is the exact integer successor, which is the double's as long as the quantity is below
  `2^53`. `-0` is identified with `0`.
* The text kept in `localStorage` is represented by the JSON document it denotes.
-/

namespace AmmuNation

/-! ## JavaScript numbers and values -/

/-- A JavaScript Number: `NaN`, a finite (integer) value, `Infinity` or `-Infinity`. -/
inductive JSNumber where
  | nan
  | int (v : Int)
  | posInf
  | negInf
  deriving DecidableEq, Repr

/-- The values a `price` or `quantity` field can hold: `null` or a Number. -/
inductive JSValue where
  | null
  | number (n : JSNumber)
  deriving DecidableEq, Repr

/-! ## Rounding an integer to a double -/

/-- Magnitudes from this bound on round to an infinity when converted to a Number:
`2^1024 - 2^970`, written with small exponents. -/
def overflowBound : Nat := (2 ^ 128) ^ 8 - (2 ^ 97) ^ 10

/-- The number of binary digits of `m`, by halving at most `fuel` times. -/
def bitLengthAux : Nat → Nat → Nat
  | 0, _ => 0
  | fuel + 1, m => if m = 0 then 0 else bitLengthAux fuel (m / 2) + 1

/-- The number of binary digits of a natural number. -/
def bitLength (m : Nat) : Nat :=
  bitLengthAux m m

/-- The double nearest to the natural number `m`, for `m` below `overflowBound`: `m`
itself up to `2^53`, otherwise `m` rounded to 53 significant binary digits, a tie going
to the even significand. -/
def roundMagnitude (m : Nat) : Nat :=
  if m ≤ 2 ^ 53 then m
  else
    let shift := bitLength m - 53
    let q := m >>> shift
    let r := m - (q <<< shift)
    let half := 1 <<< (shift - 1)
    if r < half then q <<< shift
    else if half < r then (q + 1) <<< shift
    else if q % 2 = 0 then q <<< shift
    else (q + 1) <<< shift

/-- The Number value of the integer `m` carrying the sign `neg`. -/
def numberOfMagnitude (neg : Bool) (m : Nat) : JSNumber :=
  if overflowBound ≤ m then (if neg then .negInf else .posInf)
  else .int (if neg then -(roundMagnitude m : Int) else (roundMagnitude m : Int))

/-- The Number value of an integer. -/
def JSNumber.ofInt (v : Int) : JSNumber :=
  numberOfMagnitude (decide (v < 0)) v.natAbs

namespace JSNumber

/-- The global `isNaN` on a Number. -/
def isNaN : JSNumber → Bool
  | nan => true
  | _ => false

/-- The relational operator `x < y` on Numbers (false as soon as one side is `NaN`). -/
def lt : JSNumber → JSNumber → Bool
  | nan, _ => false
  | _, nan => false
  | int a, int b => decide (a < b)
  | int _, posInf => true
  | int _, negInf => false
  | posInf, _ => false
  | negInf, negInf => false
  | negInf, _ => true

/-- Number addition `x + y` with the exact integer sum of finite values: the addition
of the quantity increment. It is the double's sum as long as the result stays within
`2^53` in magnitude. -/
def add : JSNumber → JSNumber → JSNumber
  | nan, _ => nan
  | _, nan => nan
  | int a, int b => int (a + b)
  | int _, posInf => posInf
  | int _, negInf => negInf
  | posInf, negInf => nan
  | posInf, _ => posInf
  | negInf, posInf => nan
  | negInf, _ => negInf

/-- The sign of a Number that is not `NaN`: `-1`, `0` or `1`. -/
def sign : JSNumber → Int
  | nan => 0
  | int v => Int.sign v
  | posInf => 1
  | negInf => -1

/-- Number addition `x + y`, the sum of finite values rounded to a double. -/
def plus : JSNumber → JSNumber → JSNumber
  | int a, int b => ofInt (a + b)
  | x, y => add x y

/-- Number multiplication `x * y`, the product of finite values rounded to a double. -/
def mul : JSNumber → JSNumber → JSNumber
  | nan, _ => nan
  | _, nan => nan
  | int a, int b => ofInt (a * b)
  | x, y =>
    if sign x * sign y = 0 then nan
    else if 0 < sign x * sign y then posInf
    else negInf

instance : Add JSNumber := ⟨add⟩
instance : Mul JSNumber := ⟨mul⟩
instance : Zero JSNumber := ⟨int 0⟩

/-- The decimal digits of a natural number, most significant first. -/
def digitsOf (n : Nat) : List Char :=
  Nat.toDigits 10 n

/-- For a double `v` of `d` decimal digits and a number `k` of significant digits: the
integer `s` of `k` digits and the exponent `n` such that `s * 10^(n-k)` rounds to `v`,
when there is one; of two such integers the one whose multiple is closer to `v`, the
even one at equal distance. -/
def digitCandidate (v d k : Nat) : Option (Nat × Nat) :=
  let unit := 10 ^ (d - k)
  let lo := v / unit
  let hi := lo + 1
  let okLo := decide (roundMagnitude (lo * unit) = v)
  let okHi := decide (hi * unit < overflowBound ∧ roundMagnitude (hi * unit) = v)
  let dLo := v - lo * unit
  let dHi := hi * unit - v
  let pickHi := okHi && (!okLo || dHi < dLo || (dHi = dLo && hi % 2 = 0))
  if pickHi then (if hi = 10 ^ k then some (10 ^ (k - 1), d + 1) else some (hi, d))
  else if okLo then some (lo, d)
  else none

/-- The shortest decimal significand `s` and the exponent `n` that `Number::toString`
prints for the double `v`: the least number of digits, up to 17, that rounds back to
`v`. (For an integer that is no double the search can fail; 17 digits are kept.) -/
def shortestDigits (v : Nat) : Nat × Nat :=
  let d := (digitsOf v).length
  match (List.range 17).findSome? (fun j => digitCandidate v d (j + 1)) with
  | some r => r
  | none => (v / 10 ^ (d - 17), d)

/-- The exponent form of `Number::toString`: first digit, the other digits after a
point when there are any, `e+` and the decimal exponent. -/
def exponentForm (v : Nat) : String :=
  let (s, n) := shortestDigits v
  match digitsOf s with
  | [] => ""
  | c :: cs =>
    String.mk ([c] ++ (if cs.isEmpty then [] else '.' :: cs) ++ ['e', '+'] ++ digitsOf (n - 1))

/-- The text `Number::toString` prints for a non-negative integer-valued double:
plain decimal digits below `10^21`, the exponent form from `10^21` on. -/
def natToString (n : Nat) : String :=
  if n < 10 ^ 21 then String.mk (digitsOf n) else exponentForm n

/-- The abstract operation `Number::toString` (radix 10), as used by a template
literal. -/
def toJSString : JSNumber → String
  | nan => "NaN"
  | int (Int.ofNat n) => natToString n
  | int (Int.negSucc n) => "-" ++ natToString (n + 1)
  | posInf => "Infinity"
  | negInf => "-Infinity"

/-- A Number is finite when it is neither `NaN` nor an infinity. -/
def isFinite : JSNumber → Bool
  | int _ => true
  | _ => false

end JSNumber

namespace JSValue

/-- The abstract operation `ToNumber`: `null` converts to `0`. -/
def toNumber : JSValue → JSNumber
  | null => .int 0
  | number n => n

/-- The abstract operation `ToString` of a template literal substitution. -/
def toJSString : JSValue → String
  | null => "null"
  | number n => n.toJSString

/-- The abstract operation `ToBoolean`: `null`, `0` and `NaN` are falsy. -/
def truthy : JSValue → Bool
  | null => false
  | number .nan => false
  | number (.int v) => decide (v ≠ 0)
  | number _ => true

end JSValue

/-! ## `parseInt(string, 10)` -/

/-- The characters `parseInt` skips at the start of its argument: `WhiteSpace` and
`LineTerminator` code points. -/
def isStrWhiteSpaceChar (c : Char) : Bool :=
  let n := c.toNat
  n = 0x09 || n = 0x0A || n = 0x0B || n = 0x0C || n = 0x0D || n = 0x20 || n = 0xA0
    || n = 0x1680 || (0x2000 ≤ n && n ≤ 0x200A) || n = 0x2028 || n = 0x2029
    || n = 0x202F || n = 0x205F || n = 0x3000 || n = 0xFEFF

/-- A radix-10 digit. -/
def isDecimalDigit (c : Char) : Bool :=
  0x30 ≤ c.toNat && c.toNat ≤ 0x39

/-- The integer denoted by a list of decimal digits. -/
def digitsValue (ds : List Char) : Nat :=
  ds.foldl (fun acc c => acc * 10 + (c.toNat - 0x30)) 0

/-- The global `parseInt(string, 10)`: skip leading white space, read an optional
sign, read the longest run of decimal digits; `NaN` when that run is empty. -/
def parseInt (input : String) : JSNumber :=
  let s := input.toList.dropWhile isStrWhiteSpaceChar
  let neg := s.head? = some '-'
  let s := if s.head? = some '+' ∨ s.head? = some '-' then s.tail else s
  let z := s.takeWhile isDecimalDigit
  if z.isEmpty then .nan else numberOfMagnitude neg (digitsValue z)

/-! ## Data model -/

/-- A catalog product, the argument of `handleAddToCart`. -/
structure Product where
  name : String
  price : JSNumber
  attrs : List (String × String)
  deriving DecidableEq, Repr

/-- One entry of the cart: the product's fields and a `quantity`. -/
structure LineItem where
  name : String
  price : JSValue
  quantity : JSValue
  attrs : List (String × String)
  deriving DecidableEq, Repr

/-- The cart: an array of line items. -/
abbrev Cart := List LineItem

/-! ## Cart computations of the handlers -/

/-- The `updatedCart` computed by `handleAddToCart`. -/
def addToCart (cart : Cart) (weapon : Product) : Cart :=
  match cart.find? (fun item => item.name == weapon.name) with
  | some _ =>
    cart.map (fun item =>
      if item.name = weapon.name then
        { item with quantity := .number (item.quantity.toNumber + .int 1) }
      else item)
  | none =>
    cart ++ [{ name := weapon.name, price := .number weapon.price,
               quantity := .number (.int 1), attrs := weapon.attrs }]

/-- The `updatedCart` computed by `handleUpdateQuantity`. -/
def updateQuantity (cart : Cart) (weaponName : String) (newQuantity : String) : Cart :=
  let qty := parseInt newQuantity
  if qty.isNaN || qty.lt (.int 1) then
    cart.filter (fun item => item.name != weaponName)
  else
    cart.map (fun item =>
      if item.name = weaponName then { item with quantity := .number qty } else item)

/-! ## Browser and remote environment -/

/-- A JavaScript exception, by its constructor. -/
inductive JSError where
  | typeError
  | rangeError
  | syntaxError
  deriving DecidableEq, Repr

/-- The text held under a `localStorage` key, represented by the JSON document it
denotes: the empty string, the text `null`, the text of an array of line-item
objects, or a text that is not JSON. -/
inductive StoredText where
  | empty
  | jsonNull
  | cartJson (items : List LineItem)
  | malformed
  deriving DecidableEq, Repr

/-- The browser's `localStorage`: keys with their texts. -/
abbrev LocalStorage := List (String × StoredText)

/-- The method `localStorage.getItem(key)`; `none` is JavaScript's `null`. -/
def LocalStorage.getItem (s : LocalStorage) (key : String) : Option StoredText :=
  (s.find? (fun kv => kv.1 == key)).map (fun kv => kv.2)

/-- The method `localStorage.setItem(key, value)`. -/
def LocalStorage.setItem (s : LocalStorage) (key : String) (value : StoredText) :
    LocalStorage :=
  (key, value) :: s.filter (fun kv => kv.1 != key)

/-- What `JSON.stringify` writes for a numeric field: a finite Number is kept,
`NaN`, the infinities and `null` are written as `null`. -/
def JSValue.toJSON : JSValue → JSValue
  | .number (.int v) => .number (.int v)
  | _ => .null

/-- What `JSON.stringify` writes for one line item. -/
def LineItem.toJSON (item : LineItem) : LineItem :=
  { item with price := item.price.toJSON, quantity := item.quantity.toJSON }

/-- The function `JSON.stringify` applied to a cart. -/
def jsonStringify (cart : Cart) : StoredText :=
  .cartJson (cart.map LineItem.toJSON)

/-- The function `JSON.parse`; the parsed value becomes the cart, `none` standing for
`null`. Text that is not JSON (the empty string included) raises `SyntaxError`. -/
def jsonParse : StoredText → Except JSError (Option Cart)
  | .cartJson items => .ok (some items)
  | .jsonNull => .ok none
  | .empty => .error .syntaxError
  | .malformed => .error .syntaxError

/-- The body of a toast. The JSX of the add-to-cart toast is kept as its data. -/
inductive ToastDescription where
  | text (s : String)
  | added (name : String) (price : JSNumber) (quantity : JSValue)
  deriving DecidableEq, Repr

/-- The argument of `toast(...)`. -/
structure Toast where
  title : String
  description : ToastDescription
  variant : Option String
  deriving DecidableEq, Repr

/-- A catalog category, the value of `selectedCategory`. -/
structure Category where
  id : String
  name : String
  description : String
  weapons : List Product
  deriving DecidableEq, Repr

/-- The form handed to `handleReservationSubmit`; `none` is a missing field. -/
structure ReservationForm where
  name : Option String
  date : Option String
  email : Option String
  ppa : Option String
  deriving DecidableEq, Repr

/-- The `orderPayload` object. -/
structure OrderRecord where
  id : Nat
  name : String
  email : String
  ppa : String
  orders : List String
  cost : JSNumber
  source : String
  date : String
  created_at : String
  deriving DecidableEq, Repr

/-- How `supabase.from('orders').insert([...]).select()` settles: resolved without
`error`, resolved with an `error` object, or rejected with an error object; `message`
is the object's `message` property. -/
inductive InsertResult where
  | ok
  | error (message : String)
  | rejected (message : String)
  deriving DecidableEq, Repr

/-- What the handler reads from outside the component: the clock, the `Date`
constructor and the Supabase client. -/
structure Env where
  /-- The value of `Date.now()`. -/
  now : Nat
  /-- The value of `new Date().toISOString()`. -/
  nowISO : String
  /-- The value of `new Date(s).toISOString()`; `none` when the date is invalid and
  `toISOString` raises `RangeError`. -/
  dateISO : String → Option String
  /-- The outcome of inserting a record into `orders`. -/
  insert : OrderRecord → InsertResult

/-- The state of `App` with the effects it has produced so far. -/
structure AppState where
  selectedCategory : Option Category
  /-- The `cart` state; `none` is a `null` cart. -/
  cart : Option Cart
  localStorage : LocalStorage
  /-- Every `toast(...)` call, oldest first. -/
  toasts : List Toast
  /-- Every record sent to `supabase.from('orders').insert`, oldest first. -/
  inserts : List OrderRecord
  deriving DecidableEq, Repr

/-- The key under which the cart is persisted. -/
def cartKey : String := "ammu-cart"

/-- The state of a freshly mounted `App`: `useState(null)` and `useState([])`. -/
def AppState.initial (storage : LocalStorage) : AppState :=
  { selectedCategory := none, cart := some [], localStorage := storage,
    toasts := [], inserts := [] }

/-- The call `toast(t)`. -/
def AppState.toast (st : AppState) (t : Toast) : AppState :=
  { st with toasts := st.toasts ++ [t] }

/-! ## The component's effect and handlers -/

/-- The mount effect: read `'ammu-cart'` and, when the text is truthy, parse it into
the cart. -/
def hydrate (st : AppState) : Except JSError AppState :=
  match st.localStorage.getItem cartKey with
  | none => .ok st
  | some .empty => .ok st
  | some savedCart =>
    match jsonParse savedCart with
    | .ok parsed => .ok { st with cart := parsed }
    | .error e => .error e

/-- The helper `saveCart`. -/
def saveCart (st : AppState) (currentCart : Cart) : AppState :=
  { st with
    cart := some currentCart
    localStorage := st.localStorage.setItem cartKey (jsonStringify currentCart) }

/-- The expression `x || 1` on a field value. -/
def orOne (x : JSValue) : JSValue :=
  if x.truthy then x else .number (.int 1)

/-- The toast of `handleAddToCart`. -/
def addedToast (updatedCart : Cart) (weapon : Product) : Toast :=
  { title := "Produit ajouté au panier ✅"
    description := .added weapon.name weapon.price
      (match updatedCart.find? (fun item => item.name == weapon.name) with
       | some item => orOne item.quantity
       | none => .number (.int 1))
    variant := none }

/-- The handler `handleAddToCart`; reading `cart.find` of a `null` cart raises
`TypeError`. -/
def handleAddToCart (st : AppState) (weapon : Product) : Except JSError AppState :=
  match st.cart with
  | none => .error .typeError
  | some cart =>
    let updatedCart := addToCart cart weapon
    .ok ((saveCart st updatedCart).toast (addedToast updatedCart weapon))

/-- The handler `handleUpdateQuantity`. -/
def handleUpdateQuantity (st : AppState) (weaponName : String) (newQuantity : String) :
    Except JSError AppState :=
  match st.cart with
  | none => .error .typeError
  | some cart => .ok (saveCart st (updateQuantity cart weaponName newQuantity))

/-- The handler `handleClearCart`. -/
def handleClearCart (st : AppState) : AppState :=
  saveCart st []

/-- The test `!x` on a form field: missing or the empty string. -/
def isFalsy : Option String → Bool
  | none => true
  | some s => s == ""

/-- The toast of a rejected form. -/
def formErrorToast : Toast :=
  { title := "Erreur de formulaire"
    description := .text
      "Veuillez remplir tous les champs obligatoires et ajouter au moins un article."
    variant := some "destructive" }

/-- The toast of an accepted order. -/
def orderSentToast : Toast :=
  { title := "✅ Commande envoyée !"
    description := .text
      "Votre réservation a été soumise avec succès et enregistrée directement dans Supabase."
    variant := none }

/-- The toast of the `catch` block. -/
def sendErrorToast (message : String) : Toast :=
  { title := "🚧 Erreur d'envoi"
    description := .text
      ("La commande n'a pas pu être envoyée: " ++ message ++ ". Veuillez réessayer.")
    variant := some "destructive" }

/-- The `orders` field: one text per line item. -/
def orderLines (cart : Cart) : List String :=
  cart.map (fun i => i.quantity.toJSString ++ "× " ++ i.name)

/-- The `cost` field: `cart.reduce((s,i) => s + i.price * i.quantity, 0)`. -/
def orderCost (cart : Cart) : JSNumber :=
  cart.foldl (fun s i => s.plus (i.price.toNumber * i.quantity.toNumber)) (.int 0)

/-- The object literal `orderPayload`, given the text `toISOString` produced for the
form's date. -/
def orderPayload (env : Env) (formData : ReservationForm) (cart : Cart) (date : String) :
    OrderRecord :=
  { id := env.now
    name := formData.name.getD ""
    email := formData.email.getD ""
    ppa := if isFalsy formData.ppa then "" else formData.ppa.getD ""
    orders := orderLines cart
    cost := orderCost cart
    source := "PUBLIC"
    date := date
    created_at := env.nowISO }

/-- The handler `handleReservationSubmit`: `.ok` is the state once the returned
promise has resolved, `.error` a rejected promise. The payload is built before the
`try` block, so an exception raised there is not caught. -/
def handleReservationSubmit (env : Env) (st : AppState) (formData : ReservationForm) :
    Except JSError AppState :=
  if isFalsy formData.name || isFalsy formData.date || isFalsy formData.email
      || st.cart.isNone || (st.cart.getD []).length == 0 then
    .ok (st.toast formErrorToast)
  else
    let cart := st.cart.getD []
    match env.dateISO (formData.date.getD "") with
    | none => .error .rangeError
    | some date =>
      let payload := orderPayload env formData cart date
      let st := { st with inserts := st.inserts ++ [payload] }
      match env.insert payload with
      | .ok =>
        .ok { handleClearCart (st.toast orderSentToast) with selectedCategory := none }
      | .error message => .ok (st.toast (sendErrorToast message))
      | .rejected message => .ok (st.toast (sendErrorToast message))

/-! ## Sequences of cart operations -/

/-- One of the three cart operations. -/
inductive CartOp where
  | addItem (product : Product)
  | setQuantity (name : String) (rawValue : String)
  | clear
  deriving DecidableEq, Repr

/-- Run one cart operation through its handler. -/
def applyOp (st : AppState) : CartOp → Except JSError AppState
  | .addItem product => handleAddToCart st product
  | .setQuantity name rawValue => handleUpdateQuantity st name rawValue
  | .clear => .ok (handleClearCart st)

/-- Run cart operations one after another, stopping at the first exception. -/
def runOps (st : AppState) : List CartOp → Except JSError AppState
  | [] => .ok st
  | op :: ops =>
    match applyOp st op with
    | .ok st' => runOps st' ops
    | .error e => .error e

/-- The cart a cart operation computes from the current cart. -/
def cartAfter (cart : Cart) : CartOp → Cart
  | .addItem product => addToCart cart product
  | .setQuantity name rawValue => updateQuantity cart name rawValue
  | .clear => []

/-! ## Vocabulary of the specification -/

/-- The names of a cart's line items, in cart order. -/
def cartNames (cart : Cart) : List String :=
  cart.map (fun item => item.name)

/-- The distinct names of a list, each at the place of its first occurrence. -/
def firstOccurrences : List String → List String
  | [] => []
  | n :: ns => n :: (firstOccurrences ns).filter (fun m => m != n)

/-- A field value that `JSON.stringify` and `JSON.parse` give back unchanged. -/
def JSValue.jsonSafe : JSValue → Bool
  | .null => true
  | .number (.int _) => true
  | .number _ => false

/-- A cart whose prices and quantities all survive the JSON round trip. -/
def jsonSafeCart (cart : Cart) : Prop :=
  ∀ item ∈ cart, item.price.jsonSafe = true ∧ item.quantity.jsonSafe = true

/-- The integer held by a field value that is a finite Number (`0` otherwise). -/
def JSValue.intValue : JSValue → Int
  | .number (.int v) => v
  | _ => 0

/-- The sum over the cart of price times quantity, as an exact integer. -/
def exactTotal (cart : Cart) : Int :=
  (cart.map (fun i => i.price.intValue * i.quantity.intValue)).sum

/-- A cart inside the range where JavaScript's arithmetic and printing are exact: every
price is a non-negative integer, every quantity a non-negative integer below `10^21`,
and the exact total does not exceed `2^53`. -/
def exactCart (cart : Cart) : Prop :=
  (∀ item ∈ cart, (∃ p : Int, 0 ≤ p ∧ item.price = .number (.int p)) ∧
    ∃ q : Int, 0 ≤ q ∧ q < 10 ^ 21 ∧ item.quantity = .number (.int q)) ∧
  exactTotal cart ≤ 2 ^ 53

/-- The plain decimal text of a quantity that is a non-negative integer. -/
def decimalQuantity (quantity : JSValue) : String :=
  Nat.repr quantity.intValue.toNat

/-- A form field that is present and not the empty string. -/
def filled (field : Option String) : Prop :=
  ∃ s, field = some s ∧ s ≠ ""

/-- A form whose name, date and email are all filled in. -/
def validForm (formData : ReservationForm) : Prop :=
  filled formData.name ∧ filled formData.date ∧ filled formData.email

/-- The state of a freshly mounted `App` after its mount effect ran against the
given `localStorage`. -/
def freshStore (storage : LocalStorage) : Except JSError AppState :=
  hydrate (AppState.initial storage)

/-! ## Sample inputs -/

/-- A catalog product. -/
def pistol : Product := { name := "Pistol", price := .int 500, attrs := [] }

/-- Another catalog product. -/
def rifle : Product := { name := "Rifle", price := .int 2000, attrs := [("type", "long")] }

/-- The cart of two pistols and one rifle. -/
def sampleCart : Cart :=
  [{ name := "Pistol", price := .number (.int 500), quantity := .number (.int 2), attrs := [] },
   { name := "Rifle", price := .number (.int 2000), quantity := .number (.int 1),
     attrs := [("type", "long")] }]

/-- A state holding `sampleCart` and its mirror. -/
def sampleState : AppState :=
  { selectedCategory := some { id := "cart", name := "Votre Commande Ammu-Nation",
                               description := "Finalisez votre réservation ici.",
                               weapons := [] }
    cart := some sampleCart
    localStorage := [(cartKey, jsonStringify sampleCart)]
    toasts := []
    inserts := [] }

/-- A quantity text of 310 digits: `1` followed by 309 zeros. -/
def hugeQuantity : String := String.mk ('1' :: List.replicate 309 '0')

/-- A quantity text of 309 digits: `1` followed by 308 zeros. -/
def largeQuantity : String := String.mk ('1' :: List.replicate 308 '0')

/-- A complete form. -/
def sampleForm : ReservationForm :=
  { name := some "Niko", date := some "2024-05-01", email := some "niko@example.com",
    ppa := none }

/-- A form whose date is filled in with a text that is not a date. -/
def badDateForm : ReservationForm :=
  { name := some "Niko", date := some "demain", email := some "niko@example.com",
    ppa := none }

/-- A test environment: a fixed clock, a `Date` that knows one day and rejects every
other text, and a remote store that settles as given. -/
def sampleEnv (outcome : InsertResult) : Env :=
  { now := 1714557600000
    nowISO := "2024-05-01T10:00:00.000Z"
    dateISO := fun s => if s = "2024-05-01" then some "2024-05-01T00:00:00.000Z" else none
    insert := fun _ => outcome }

/-! ## Lemmas and theorems -/

theorem overflowBound_eq : overflowBound = 2 ^ 1024 - 2 ^ 970 := by
  simp only [overflowBound, ← pow_mul]

theorem mem_firstOccurrences (ns : List String) (n : String) :
    n ∈ firstOccurrences ns ↔ n ∈ ns := by
  induction ns with
  | nil => simp [firstOccurrences]
  | cons m ms ih =>
    simp only [firstOccurrences, List.mem_cons, List.mem_filter, ih, bne_iff_ne, ne_eq]
    by_cases h : n = m <;> simp [h]

theorem nodup_firstOccurrences (ns : List String) : (firstOccurrences ns).Nodup := by
  induction ns with
  | nil => simp [firstOccurrences]
  | cons m ms ih =>
    simp only [firstOccurrences, List.nodup_cons, List.mem_filter, bne_iff_ne, ne_eq,
      not_true_eq_false, and_false, not_false_eq_true, true_and]
    exact ih.filter _

theorem firstOccurrences_append_singleton (ns : List String) (n : String) :
    firstOccurrences (ns ++ [n]) =
      if n ∈ ns then firstOccurrences ns else firstOccurrences ns ++ [n] := by
  induction ns with
  | nil => simp [firstOccurrences]
  | cons m ms ih =>
    simp only [List.cons_append, firstOccurrences, List.mem_cons, List.append_eq]
    rw [ih]
    by_cases h1 : n ∈ ms
    · simp [h1]
    · by_cases h2 : n = m
      · subst h2
        simp [h1, List.filter_append]
      · simp [h1, h2, List.filter_append]

theorem int_add_int (a b : Int) : JSNumber.int a + JSNumber.int b = JSNumber.int (a + b) :=
  rfl

theorem find?_name_eq_none (cart : Cart) (n : String) :
    cart.find? (fun item => item.name == n) = none ↔ n ∉ cartNames cart := by
  simp only [cartNames, List.find?_eq_none, beq_iff_eq, List.mem_map, not_exists, not_and]

theorem cartNames_addToCart (cart : Cart) (weapon : Product) :
    cartNames (addToCart cart weapon) =
      if weapon.name ∈ cartNames cart then cartNames cart
      else cartNames cart ++ [weapon.name] := by
  unfold addToCart
  cases hf : cart.find? (fun item => item.name == weapon.name) with
  | none =>
    have h := (find?_name_eq_none cart weapon.name).1 hf
    simp only [h, if_false]
    simp [cartNames]
  | some found =>
    have h : weapon.name ∈ cartNames cart := by
      by_contra hc
      rw [(find?_name_eq_none cart weapon.name).2 hc] at hf
      cases hf
    simp only [h, if_true]
    simp only [cartNames, List.map_map]
    apply List.map_congr_left
    intro item _
    by_cases hn : item.name = weapon.name <;> simp [hn]


theorem quantity_addToCart (cart : Cart) (weapon : Product) (k : String → Int)
    (h : ∀ item ∈ cart, item.quantity = .number (.int (k item.name)))
    (h0 : weapon.name ∉ cartNames cart → k weapon.name = 0) :
    ∀ item ∈ addToCart cart weapon,
      item.quantity = .number (.int (k item.name + if item.name = weapon.name then 1 else 0)) := by
  intro item hitem
  unfold addToCart at hitem
  cases hf : cart.find? (fun item => item.name == weapon.name) with
  | none =>
    have hn := (find?_name_eq_none cart weapon.name).1 hf
    rw [hf] at hitem
    simp only [List.mem_append, List.mem_singleton] at hitem
    rcases hitem with hmem | rfl
    · have hne : item.name ≠ weapon.name := by
        intro he
        exact hn (he ▸ List.mem_map_of_mem (fun item => item.name) hmem)
      simp [h item hmem, hne]
    · simp [h0 hn]
  | some found =>
    rw [hf] at hitem
    simp only [List.mem_map] at hitem
    obtain ⟨old, hold, rfl⟩ := hitem
    by_cases hn : old.name = weapon.name
    · simp [hn, h old hold, JSValue.toNumber, int_add_int]
    · simp [hn, h old hold]

theorem foldl_addToCart_spec (ps : List Product) :
    cartNames (ps.foldl addToCart []) = firstOccurrences (ps.map (fun p => p.name)) ∧
    ∀ item ∈ ps.foldl addToCart [],
      item.quantity = .number (.int ((ps.map (fun p => p.name)).count item.name)) := by
  induction ps using List.reverseRecOn with
  | nil => simp [cartNames, firstOccurrences]
  | append_singleton ps p ih =>
    obtain ⟨ihn, ihq⟩ := ih
    have hmem : p.name ∈ cartNames (ps.foldl addToCart []) ↔
        p.name ∈ ps.map (fun p => p.name) := by
      rw [ihn, mem_firstOccurrences]
    constructor
    · rw [List.foldl_append, List.foldl_cons, List.foldl_nil, cartNames_addToCart,
        List.map_append, List.map_singleton, firstOccurrences_append_singleton, ihn]
      by_cases hp : p.name ∈ ps.map (fun p => p.name)
      · rw [if_pos hp, if_pos ((mem_firstOccurrences _ _).2 hp)]
      · rw [if_neg hp, if_neg (fun hc => hp ((mem_firstOccurrences _ _).1 hc))]
    · intro item hitem
      rw [List.foldl_append, List.foldl_cons, List.foldl_nil] at hitem
      have := quantity_addToCart (ps.foldl addToCart []) p
        (fun n => ((ps.map (fun p => p.name)).count n : Int)) ihq
        (fun hc => by
          have : p.name ∉ ps.map (fun p => p.name) := fun hm => hc (hmem.2 hm)
          simp [List.count_eq_zero_of_not_mem this]) item hitem
      rw [this, List.map_append, List.map_singleton, List.count_append, List.count_singleton]
      by_cases hn : item.name = p.name
      · simp [hn]
      · have hn2 : ¬ p.name = item.name := fun hc => hn hc.symm
        simp [hn, hn2]

theorem getItem_setItem (s : LocalStorage) (key : String) (value : StoredText) :
    (s.setItem key value).getItem key = some value := by
  simp [LocalStorage.getItem, LocalStorage.setItem]

theorem applyOp_ok (st : AppState) (cart : Cart) (op : CartOp) (h : st.cart = some cart) :
    ∃ st', applyOp st op = .ok st' ∧ st'.cart = some (cartAfter cart op) ∧
      st'.localStorage.getItem cartKey = some (jsonStringify (cartAfter cart op)) ∧
      st'.inserts = st.inserts ∧ st'.selectedCategory = st.selectedCategory := by
  cases op with
  | addItem product =>
    refine ⟨(saveCart st (addToCart cart product)).toast
      (addedToast (addToCart cart product) product), ?_, rfl, ?_, rfl, rfl⟩
    · simp only [applyOp, handleAddToCart, h]
    · exact getItem_setItem _ _ _
  | setQuantity name rawValue =>
    refine ⟨saveCart st (updateQuantity cart name rawValue), ?_, rfl, ?_, rfl, rfl⟩
    · simp only [applyOp, handleUpdateQuantity, h]
    · exact getItem_setItem _ _ _
  | clear =>
    refine ⟨_, rfl, rfl, ?_, rfl, rfl⟩
    exact getItem_setItem _ _ _

theorem runOps_ok (ops : List CartOp) (st : AppState) (cart : Cart) (h : st.cart = some cart) :
    ∃ st', runOps st ops = .ok st' ∧ st'.cart = some (ops.foldl cartAfter cart) := by
  induction ops generalizing st cart with
  | nil => exact ⟨st, rfl, h⟩
  | cons op ops ih =>
    obtain ⟨st1, h1, hc1, -⟩ := applyOp_ok st cart op h
    obtain ⟨st2, h2, hc2⟩ := ih st1 _ hc1
    exact ⟨st2, by simp only [runOps, h1]; exact h2, hc2⟩

theorem foldl_cartAfter_addItem (ps : List Product) (cart : Cart) :
    (ps.map CartOp.addItem).foldl cartAfter cart = ps.foldl addToCart cart := by
  induction ps generalizing cart with
  | nil => rfl
  | cons p ps ih => simpa [cartAfter] using ih (addToCart cart p)

/-- C1: adding products one after another to the empty cart leaves exactly one line
item per distinct product name, in the order in which each name was first added, and
the quantity of each line item is the number of additions made with its name. -/
theorem addItem_sequence_counts (st : AppState) (ps : List Product) (h : st.cart = some []) :
    ∃ st' cart, runOps st (ps.map CartOp.addItem) = .ok st' ∧ st'.cart = some cart ∧
      cartNames cart = firstOccurrences (ps.map (fun p => p.name)) ∧
      (cartNames cart).Nodup ∧
      (∀ n, n ∈ cartNames cart ↔ n ∈ ps.map (fun p => p.name)) ∧
      ∀ item ∈ cart,
        item.quantity = .number (.int ((ps.map (fun p => p.name)).count item.name)) := by
  obtain ⟨st', hrun, hcart⟩ := runOps_ok (ps.map CartOp.addItem) st [] h
  rw [foldl_cartAfter_addItem] at hcart
  obtain ⟨hn, hq⟩ := foldl_addToCart_spec ps
  refine ⟨st', _, hrun, hcart, hn, ?_, ?_, hq⟩
  · rw [hn]; exact nodup_firstOccurrences _
  · intro n; rw [hn]; exact mem_firstOccurrences _ n

/-- Witness for C1: pistol, rifle, pistol added to a fresh store. -/
theorem addItem_sequence_counts_witness :
    (AppState.initial []).cart = some [] ∧
    firstOccurrences ([pistol, rifle, pistol].map (fun p => p.name)) = ["Pistol", "Rifle"] ∧
    ∃ st' cart, runOps (AppState.initial []) ([pistol, rifle, pistol].map CartOp.addItem)
        = .ok st' ∧ st'.cart = some cart ∧
      cartNames cart = firstOccurrences ([pistol, rifle, pistol].map (fun p => p.name)) ∧
      (cartNames cart).Nodup ∧
      (∀ n, n ∈ cartNames cart ↔ n ∈ [pistol, rifle, pistol].map (fun p => p.name)) ∧
      ∀ item ∈ cart,
        item.quantity =
          .number (.int (([pistol, rifle, pistol].map (fun p => p.name)).count item.name)) :=
  ⟨rfl, by decide, addItem_sequence_counts (AppState.initial []) [pistol, rifle, pistol] rfl⟩

theorem nodup_cartNames_addToCart (cart : Cart) (weapon : Product)
    (h : (cartNames cart).Nodup) : (cartNames (addToCart cart weapon)).Nodup := by
  rw [cartNames_addToCart]
  by_cases hm : weapon.name ∈ cartNames cart
  · rw [if_pos hm]; exact h
  · rw [if_neg hm]
    exact List.Nodup.append h (List.nodup_singleton _) (by simpa using hm)

theorem cartNames_filter_sublist (cart : Cart) (p : LineItem → Bool) :
    (cartNames (cart.filter p)).Sublist (cartNames cart) :=
  List.Sublist.map _ (List.filter_sublist cart)

theorem cartNames_updateQuantity_sublist (cart : Cart) (name raw : String) :
    (cartNames (updateQuantity cart name raw)).Sublist (cartNames cart) := by
  unfold updateQuantity
  simp only
  split
  · exact cartNames_filter_sublist cart _
  · have : cartNames (cart.map (fun item =>
        if item.name = name then { item with quantity := .number (parseInt raw) } else item))
        = cartNames cart := by
      simp only [cartNames, List.map_map]
      apply List.map_congr_left
      intro item _
      by_cases hn : item.name = name <;> simp [hn]
    rw [this]

/-- The quantities the cart operations can store: `Infinity` or an integer from 1 on. -/
theorem quantity_cartAfter (cart : Cart) (op : CartOp)
    (h : ∀ item ∈ cart, item.quantity = .number .posInf ∨
      ∃ n : Int, 1 ≤ n ∧ item.quantity = .number (.int n)) :
    ∀ item ∈ cartAfter cart op, item.quantity = .number .posInf ∨
      ∃ n : Int, 1 ≤ n ∧ item.quantity = .number (.int n) := by
  intro item hitem
  cases op with
  | addItem product =>
    simp only [cartAfter, addToCart] at hitem
    split at hitem
    · simp only [List.mem_map] at hitem
      obtain ⟨old, hold, rfl⟩ := hitem
      by_cases hn : old.name = product.name
      · simp only [hn, if_true]
        rcases h old hold with hq | ⟨n, hn1, hq⟩
        · left; rw [hq]; rfl
        · right; exact ⟨n + 1, by omega, by rw [hq]; rfl⟩
      · simp only [hn, if_false]; exact h old hold
    · simp only [List.mem_append, List.mem_singleton] at hitem
      rcases hitem with hmem | rfl
      · exact h item hmem
      · right; exact ⟨1, le_refl _, rfl⟩
  | setQuantity name raw =>
    simp only [cartAfter, updateQuantity] at hitem
    split at hitem
    · exact h item (List.mem_filter.1 hitem).1
    · rename_i hq
      simp only [List.mem_map] at hitem
      obtain ⟨old, hold, rfl⟩ := hitem
      by_cases hn : old.name = name
      · simp only [hn, if_true]
        cases hp : parseInt raw with
        | nan => simp [hp, JSNumber.isNaN] at hq
        | int v =>
          right
          refine ⟨v, ?_, rfl⟩
          simp [hp, JSNumber.isNaN, JSNumber.lt] at hq
          exact hq
        | posInf => left; rfl
        | negInf => simp [hp, JSNumber.isNaN, JSNumber.lt] at hq
      · simp only [hn, if_false]; exact h old hold
  | clear => simp [cartAfter] at hitem

theorem nodup_cartAfter (cart : Cart) (op : CartOp) (h : (cartNames cart).Nodup) :
    (cartNames (cartAfter cart op)).Nodup := by
  cases op with
  | addItem product => exact nodup_cartNames_addToCart cart product h
  | setQuantity name raw => exact h.sublist (cartNames_updateQuantity_sublist cart name raw)
  | clear => simp [cartAfter, cartNames]

/-- What does hold of every cart reachable from the empty cart: names are pairwise
distinct and every quantity is `Infinity` or an integer from 1 on. -/
theorem reachable_cart_invariant (storage : LocalStorage) (ops : List CartOp) :
    ∃ st' cart, runOps (AppState.initial storage) ops = .ok st' ∧ st'.cart = some cart ∧
      (cartNames cart).Nodup ∧
      ∀ item ∈ cart, item.quantity = .number .posInf ∨
        ∃ n : Int, 1 ≤ n ∧ item.quantity = .number (.int n) := by
  obtain ⟨st', hrun, hcart⟩ := runOps_ok ops (AppState.initial storage) [] rfl
  refine ⟨st', _, hrun, hcart, ?_⟩
  clear hrun hcart
  induction ops using List.reverseRecOn with
  | nil => simp [cartNames]
  | append_singleton ops op ih =>
    rw [List.foldl_append, List.foldl_cons, List.foldl_nil]
    exact ⟨nodup_cartAfter _ op ih.1, quantity_cartAfter _ op ih.2⟩

set_option maxRecDepth 100000 in
/-- C2 at its failing input: after adding a pistol to the empty cart and setting its
quantity from a text of 310 digits, the cart stores the quantity `Infinity`, which is
not an integer. -/
theorem quantity_not_integer_after_overflow :
    (runOps (AppState.initial [])
        [.addItem pistol, .setQuantity "Pistol" hugeQuantity]).toOption.map
        (fun st => st.cart) =
      some (some [{ name := "Pistol", price := .number (.int 500),
                    quantity := .number .posInf, attrs := [] }]) := by
  decide

theorem handleUpdateQuantity_ok (st : AppState) (cart : Cart) (name raw : String)
    (h : st.cart = some cart) :
    handleUpdateQuantity st name raw = .ok (saveCart st (updateQuantity cart name raw)) := by
  simp only [handleUpdateQuantity, h]

/-- C3: when the raw value does not parse (`NaN`) or parses to a value below 1,
`handleUpdateQuantity` keeps exactly the items with another name, in their order;
when no item has the name, the cart is unchanged. -/
theorem setQuantity_invalid_removes (st : AppState) (cart : Cart) (name raw : String)
    (hc : st.cart = some cart)
    (hq : parseInt raw = .nan ∨ parseInt raw = .negInf ∨
      ∃ v : Int, v < 1 ∧ parseInt raw = .int v) :
    ∃ st', handleUpdateQuantity st name raw = .ok st' ∧
      st'.cart = some (cart.filter (fun item => item.name != name)) ∧
      (name ∉ cartNames cart → st'.cart = some cart) := by
  have hu : updateQuantity cart name raw = cart.filter (fun item => item.name != name) := by
    unfold updateQuantity
    rcases hq with hq | hq | ⟨v, hv, hq⟩
    · simp [hq, JSNumber.isNaN]
    · simp [hq, JSNumber.isNaN, JSNumber.lt]
    · simp [hq, JSNumber.isNaN, JSNumber.lt, hv]
  refine ⟨saveCart st (updateQuantity cart name raw),
    handleUpdateQuantity_ok st cart name raw hc, ?_, ?_⟩
  · simp only [saveCart, hu]
  · intro hn
    simp only [saveCart, hu]
    congr 1
    rw [List.filter_eq_self]
    intro item hitem
    simp only [bne_iff_ne, ne_eq]
    intro he
    exact hn (he ▸ List.mem_map_of_mem (fun item => item.name) hitem)

/-- Witness for C3: the raw values `"0"`, `"-3"` and `"abc"` all fall under the
hypothesis, and `"abc"` removes the pistol from the sample cart. -/
theorem setQuantity_invalid_removes_witness :
    (parseInt "0" = .int 0 ∧ parseInt "-3" = .int (-3) ∧ parseInt "abc" = .nan) ∧
    sampleState.cart = some sampleCart ∧
    ∃ st', handleUpdateQuantity sampleState "Pistol" "abc" = .ok st' ∧
      st'.cart = some (sampleCart.filter (fun item => item.name != "Pistol")) ∧
      ("Pistol" ∉ cartNames sampleCart → st'.cart = some sampleCart) :=
  ⟨by decide, rfl,
    setQuantity_invalid_removes sampleState sampleCart "Pistol" "abc" rfl (Or.inl (by decide))⟩

/-- C4: when the raw value parses to an integer `n ≥ 1`, `handleUpdateQuantity` keeps
the length of the cart, gives every item with the name the quantity `n` at its index
with its other fields unchanged, and leaves every other item as it was. -/
theorem setQuantity_valid_sets (st : AppState) (cart : Cart) (name raw : String) (n : Int)
    (hc : st.cart = some cart) (hq : parseInt raw = .int n) (hn : 1 ≤ n) :
    ∃ st' cart', handleUpdateQuantity st name raw = .ok st' ∧ st'.cart = some cart' ∧
      cart'.length = cart.length ∧
      ∀ (i : Nat) (h : i < cart.length) (h' : i < cart'.length),
        (cart[i].name = name →
          cart'[i] = { cart[i] with quantity := .number (.int n) }) ∧
        (cart[i].name ≠ name → cart'[i] = cart[i]) := by
  have hu : updateQuantity cart name raw = cart.map (fun item =>
      if item.name = name then { item with quantity := .number (.int n) } else item) := by
    unfold updateQuantity
    have : ¬ n < 1 := by omega
    simp [hq, JSNumber.isNaN, JSNumber.lt, this]
  refine ⟨saveCart st (updateQuantity cart name raw), updateQuantity cart name raw,
    handleUpdateQuantity_ok st cart name raw hc, rfl, ?_, ?_⟩
  · rw [hu, List.length_map]
  · intro i h h'
    simp only [hu, List.getElem_map]
    constructor
    · intro he; rw [if_pos he]
    · intro he; rw [if_neg he]

/-- Witness for C4: `"5"` sets the pistol of the sample cart to quantity 5. -/
theorem setQuantity_valid_sets_witness :
    sampleState.cart = some sampleCart ∧ parseInt "5" = .int 5 ∧ (1 : Int) ≤ 5 ∧
    ∃ st' cart', handleUpdateQuantity sampleState "Pistol" "5" = .ok st' ∧
      st'.cart = some cart' ∧ cart'.length = sampleCart.length ∧
      ∀ (i : Nat) (h : i < sampleCart.length) (h' : i < cart'.length),
        (sampleCart[i].name = "Pistol" →
          cart'[i] = { sampleCart[i] with quantity := .number (.int 5) }) ∧
        (sampleCart[i].name ≠ "Pistol" → cart'[i] = sampleCart[i]) :=
  ⟨rfl, by decide, by decide,
    setQuantity_valid_sets sampleState sampleCart "Pistol" "5" 5 rfl (by decide) (by decide)⟩

theorem isFalsy_of_filled (field : Option String) (h : filled field) : isFalsy field = false := by
  obtain ⟨s, rfl, hs⟩ := h
  simp [isFalsy, hs]

theorem le_overflowBound : 2 ^ 53 < overflowBound := by
  decide

theorem ofInt_of_nonneg_of_le (v : Int) (h0 : 0 ≤ v) (h : v ≤ 2 ^ 53) :
    JSNumber.ofInt v = .int v := by
  obtain ⟨n, rfl⟩ := Int.eq_ofNat_of_zero_le h0
  have hn : n ≤ 2 ^ 53 := by exact_mod_cast h
  have hb : ¬ overflowBound ≤ n := by
    have := le_overflowBound
    omega
  have hneg : decide ((n : Int) < 0) = false := by simp
  simp only [JSNumber.ofInt, numberOfMagnitude, Int.natAbs_ofNat, hneg, if_neg hb]
  rw [roundMagnitude, if_pos hn]
  rfl

theorem foldl_cost_exact (cart : Cart)
    (h : ∀ item ∈ cart, (∃ p : Int, 0 ≤ p ∧ item.price = .number (.int p)) ∧
      ∃ q : Int, 0 ≤ q ∧ q < 10 ^ 21 ∧ item.quantity = .number (.int q))
    (a : Int) (ha : 0 ≤ a) (hsum : a + exactTotal cart ≤ 2 ^ 53) :
    cart.foldl (fun (s : JSNumber) i => s.plus (i.price.toNumber * i.quantity.toNumber))
        (.int a) = .int (a + exactTotal cart) ∧ 0 ≤ exactTotal cart := by
  induction cart generalizing a with
  | nil => simp [exactTotal]
  | cons item rest ih =>
    obtain ⟨⟨p, hp0, hp⟩, ⟨q, hq0, -, hq⟩⟩ := h item (List.mem_cons_self _ _)
    have hrest : ∀ i ∈ rest, (∃ p : Int, 0 ≤ p ∧ i.price = .number (.int p)) ∧
        ∃ q : Int, 0 ≤ q ∧ q < 10 ^ 21 ∧ i.quantity = .number (.int q) :=
      fun i hi => h i (List.mem_cons_of_mem _ hi)
    have hpq : 0 ≤ p * q := Int.mul_nonneg hp0 hq0
    have htot : exactTotal (item :: rest) = p * q + exactTotal rest := by
      simp [exactTotal, hp, hq, JSValue.intValue]
    have hrest0 : 0 ≤ exactTotal rest := by
      unfold exactTotal
      apply List.sum_nonneg
      intro x hx
      obtain ⟨i, hi, rfl⟩ := List.mem_map.1 hx
      obtain ⟨⟨p', hp0', hp'⟩, ⟨q', hq0', -, hq'⟩⟩ := hrest i hi
      simp only [hp', hq', JSValue.intValue]
      exact Int.mul_nonneg hp0' hq0'
    rw [htot] at hsum ⊢
    have hmul : item.price.toNumber * item.quantity.toNumber = JSNumber.int (p * q) := by
      rw [hp, hq]
      exact ofInt_of_nonneg_of_le (p * q) hpq (by omega)
    have hplus : (JSNumber.int a).plus (JSNumber.int (p * q)) = JSNumber.int (a + p * q) :=
      ofInt_of_nonneg_of_le (a + p * q) (by omega) (by omega)
    rw [List.foldl_cons, hmul, hplus]
    obtain ⟨ih1, -⟩ := ih hrest (a + p * q) (by omega) (by omega)
    rw [ih1]
    exact ⟨by rw [Int.add_assoc], by omega⟩

theorem orderCost_exact (cart : Cart) (h : exactCart cart) :
    orderCost cart = .int (exactTotal cart) := by
  obtain ⟨hitems, htotal⟩ := h
  have := (foldl_cost_exact cart hitems 0 (le_refl _) (by omega)).1
  simpa [orderCost] using this

theorem toJSString_decimal (q : Int) (h0 : 0 ≤ q) (h : q < 10 ^ 21) :
    (JSValue.number (.int q)).toJSString = decimalQuantity (.number (.int q)) := by
  obtain ⟨n, rfl⟩ := Int.eq_ofNat_of_zero_le h0
  have hn : n < 10 ^ 21 := by exact_mod_cast h
  simp only [JSValue.toJSString, decimalQuantity, JSValue.intValue, Int.toNat_ofNat]
  show JSNumber.natToString n = Nat.repr n
  simp only [JSNumber.natToString, hn, if_true]
  rfl

theorem orderLines_exact (cart : Cart) (h : exactCart cart) :
    orderLines cart = cart.map (fun i => decimalQuantity i.quantity ++ "× " ++ i.name) := by
  unfold orderLines
  apply List.map_congr_left
  intro item hitem
  obtain ⟨-, ⟨q, hq0, hq21, hq⟩⟩ := h.1 item hitem
  rw [hq, toJSString_decimal q hq0 hq21]

/-- The handler on a form and cart that pass the validation. -/
theorem handleReservationSubmit_valid (env : Env) (st : AppState) (formData : ReservationForm)
    (cart : Cart) (d : String) (hform : validForm formData) (hcart : st.cart = some cart)
    (hne : cart ≠ []) (hd : formData.date = some d) :
    handleReservationSubmit env st formData =
      match env.dateISO d with
      | none => .error .rangeError
      | some date =>
        match env.insert (orderPayload env formData cart date) with
        | .ok =>
          .ok { handleClearCart
                  ({ st with inserts := st.inserts ++ [orderPayload env formData cart date] }.toast
                    orderSentToast) with selectedCategory := none }
        | .error message =>
          .ok ({ st with inserts := st.inserts ++ [orderPayload env formData cart date] }.toast
            (sendErrorToast message))
        | .rejected message =>
          .ok ({ st with inserts := st.inserts ++ [orderPayload env formData cart date] }.toast
            (sendErrorToast message)) := by
  obtain ⟨h1, h2, h3⟩ := hform
  have hlen : (cart.length == 0) = false := by
    simpa using hne
  have e1 := isFalsy_of_filled _ h1
  have e2 := isFalsy_of_filled _ h2
  have e3 := isFalsy_of_filled _ h3
  unfold handleReservationSubmit
  rw [if_neg (by simp [e1, e2, e3, hcart, hlen])]
  simp only [hcart, Option.getD_some, hd]

/-- C5: when the cart is empty or absent, or one of name, date, email is empty or
missing, `handleReservationSubmit` sends nothing to the remote insert and leaves the
cart and its mirror as they were; it only emits the form-error toast. -/
theorem submit_invalid_sends_nothing (env : Env) (st : AppState) (formData : ReservationForm)
    (h : formData.name = none ∨ formData.name = some "" ∨
         formData.date = none ∨ formData.date = some "" ∨
         formData.email = none ∨ formData.email = some "" ∨
         st.cart = none ∨ st.cart = some []) :
    ∃ st', handleReservationSubmit env st formData = .ok st' ∧
      st'.inserts = st.inserts ∧ st'.cart = st.cart ∧
      st'.localStorage = st.localStorage ∧ st'.toasts = st.toasts ++ [formErrorToast] := by
  refine ⟨st.toast formErrorToast, ?_, rfl, rfl, rfl, rfl⟩
  unfold handleReservationSubmit
  rw [if_pos]
  rcases h with h | h | h | h | h | h | h | h <;> simp [h, isFalsy]

/-- Witness for C5: the complete form submitted with an empty cart. -/
theorem submit_invalid_sends_nothing_witness :
    (AppState.initial []).cart = some [] ∧
    ∃ st', handleReservationSubmit (sampleEnv .ok) (AppState.initial []) sampleForm = .ok st' ∧
      st'.inserts = (AppState.initial []).inserts ∧ st'.cart = (AppState.initial []).cart ∧
      st'.localStorage = (AppState.initial []).localStorage ∧
      st'.toasts = (AppState.initial []).toasts ++ [formErrorToast] :=
  ⟨rfl, submit_invalid_sends_nothing (sampleEnv .ok) (AppState.initial []) sampleForm
    (Or.inr (Or.inr (Or.inr (Or.inr (Or.inr (Or.inr (Or.inr rfl)))))))⟩

/-- C6, as amended: for a valid form whose date converts and a non-empty cart whose
prices and quantities are non-negative integers with an exact total of at most `2^53`
and quantities below `10^21`, `handleReservationSubmit` sends exactly one record; its
`cost` is the exact sum over the cart of price times quantity and its `orders` lists,
in cart order, the decimal quantity, the sign `×`, a blank and the name of each item. -/
theorem submit_record_cost_and_orders (env : Env) (st : AppState)
    (formData : ReservationForm) (cart : Cart) (d iso : String)
    (hform : validForm formData) (hcart : st.cart = some cart) (hne : cart ≠ [])
    (hd : formData.date = some d) (hdate : env.dateISO d = some iso)
    (hexact : exactCart cart) :
    ∃ st' record, handleReservationSubmit env st formData = .ok st' ∧
      st'.inserts = st.inserts ++ [record] ∧
      record.cost = .int (exactTotal cart) ∧
      record.orders = cart.map (fun i => decimalQuantity i.quantity ++ "× " ++ i.name) := by
  have hv := handleReservationSubmit_valid env st formData cart d hform hcart hne hd
  rw [hdate] at hv
  simp only at hv
  cases hins : env.insert (orderPayload env formData cart iso) with
  | ok =>
    rw [hins] at hv
    exact ⟨_, orderPayload env formData cart iso, hv, rfl, orderCost_exact cart hexact,
      orderLines_exact cart hexact⟩
  | error message =>
    rw [hins] at hv
    exact ⟨_, orderPayload env formData cart iso, hv, rfl, orderCost_exact cart hexact,
      orderLines_exact cart hexact⟩
  | rejected message =>
    rw [hins] at hv
    exact ⟨_, orderPayload env formData cart iso, hv, rfl, orderCost_exact cart hexact,
      orderLines_exact cart hexact⟩

theorem validForm_sampleForm : validForm sampleForm :=
  ⟨⟨"Niko", rfl, by decide⟩, ⟨"2024-05-01", rfl, by decide⟩,
    ⟨"niko@example.com", rfl, by decide⟩⟩

theorem validForm_badDateForm : validForm badDateForm :=
  ⟨⟨"Niko", rfl, by decide⟩, ⟨"demain", rfl, by decide⟩,
    ⟨"niko@example.com", rfl, by decide⟩⟩

theorem exactCart_sampleCart : exactCart sampleCart := by
  refine ⟨?_, by decide⟩
  intro item hitem
  simp only [sampleCart, List.mem_cons, List.mem_singleton, List.not_mem_nil, or_false] at hitem
  rcases hitem with rfl | rfl
  · exact ⟨⟨500, by decide, rfl⟩, ⟨2, by decide, by decide, rfl⟩⟩
  · exact ⟨⟨2000, by decide, rfl⟩, ⟨1, by decide, by decide, rfl⟩⟩

/-- Witness for C6: two pistols at 500 and one rifle at 2000 give the cost 3000 and
the order lines `2× Pistol`, `1× Rifle`. -/
theorem submit_record_cost_and_orders_witness :
    validForm sampleForm ∧ sampleState.cart = some sampleCart ∧ sampleCart ≠ [] ∧
    exactCart sampleCart ∧
    ∃ st' record, handleReservationSubmit (sampleEnv .ok) sampleState sampleForm = .ok st' ∧
      st'.inserts = sampleState.inserts ++ [record] ∧
      record.cost = .int 3000 ∧ record.orders = ["2× Pistol", "1× Rifle"] := by
  refine ⟨validForm_sampleForm, rfl, by decide, exactCart_sampleCart, ?_⟩
  obtain ⟨st', record, h1, h2, h3, h4⟩ :=
    submit_record_cost_and_orders (sampleEnv .ok) sampleState sampleForm sampleCart
      "2024-05-01" "2024-05-01T00:00:00.000Z" validForm_sampleForm rfl (by decide) rfl rfl
      exactCart_sampleCart
  exact ⟨st', record, h1, h2, h3.trans (by decide), h4.trans (by decide)⟩

set_option maxRecDepth 100000 in
/-- Counterexample to C6 as stated. After adding a pistol (price 500) to the empty
cart and setting its quantity from the text `1` followed by 308 zeros, the quantity is
a finite integer, yet the record sent on submit has the cost `Infinity`, which is not
the sum of price times quantity. With the quantity text `1000000000000000000000` the
order line sent is `1e+21× Pistol`, not the decimal quantity. -/
theorem cost_and_orders_outside_exact_range :
    ((runOps (AppState.initial [])
        [.addItem pistol, .setQuantity "Pistol" largeQuantity]).toOption.bind
      (fun st => (handleReservationSubmit (sampleEnv .ok) st sampleForm).toOption.map
        (fun st' =>
          (st.cart.map (fun c => c.map (fun i => i.quantity.toNumber.isFinite)),
           st'.inserts.map (fun r => r.cost),
           st.cart.map (fun c =>
             decide (JSNumber.int (exactTotal c) ∈ st'.inserts.map (fun r => r.cost))))))
      = some (some [true], [.posInf], some false)) ∧
    ((runOps (AppState.initial [])
        [.addItem pistol, .setQuantity "Pistol" "1000000000000000000000"]).toOption.bind
      (fun st => (handleReservationSubmit (sampleEnv .ok) st sampleForm).toOption.map
        (fun st' =>
          (st.cart.map (fun c => c.map (fun i => i.quantity)),
           st'.inserts.map (fun r => r.orders))))
      = some (some [.number (.int (10 ^ 21))], [["1e+21× Pistol"]])) := by
  constructor <;> decide

/-- C7: for a valid form whose date converts and a non-empty cart, when the remote
insert resolves with an error or rejects, the promise resolves, the cart, its mirror
and the selection are as before, and a toast whose text contains the error's message
is emitted. -/
theorem submit_insert_failure_keeps_cart (env : Env) (st : AppState)
    (formData : ReservationForm) (cart : Cart) (d iso message : String)
    (hform : validForm formData) (hcart : st.cart = some cart) (hne : cart ≠ [])
    (hd : formData.date = some d) (hdate : env.dateISO d = some iso)
    (hins : env.insert (orderPayload env formData cart iso) = .error message ∨
      env.insert (orderPayload env formData cart iso) = .rejected message) :
    ∃ st', handleReservationSubmit env st formData = .ok st' ∧
      st'.cart = st.cart ∧ st'.localStorage = st.localStorage ∧
      st'.selectedCategory = st.selectedCategory ∧
      st'.toasts = st.toasts ++ [sendErrorToast message] ∧
      ∃ before after,
        (sendErrorToast message).description = .text (before ++ message ++ after) := by
  have hv := handleReservationSubmit_valid env st formData cart d hform hcart hne hd
  rw [hdate] at hv
  simp only at hv
  rcases hins with hins | hins
  · rw [hins] at hv
    exact ⟨_, hv, rfl, rfl, rfl, rfl, _, _, rfl⟩
  · rw [hins] at hv
    exact ⟨_, hv, rfl, rfl, rfl, rfl, _, _, rfl⟩

/-- Witness for C7: the sample cart submitted against a store that answers with an
error. -/
theorem submit_insert_failure_keeps_cart_witness :
    validForm sampleForm ∧ sampleState.cart = some sampleCart ∧ sampleCart ≠ [] ∧
    ∃ st', handleReservationSubmit (sampleEnv (.error "permission denied")) sampleState
        sampleForm = .ok st' ∧
      st'.cart = sampleState.cart ∧ st'.localStorage = sampleState.localStorage ∧
      st'.selectedCategory = sampleState.selectedCategory ∧
      st'.toasts = sampleState.toasts ++ [sendErrorToast "permission denied"] ∧
      ∃ before after,
        (sendErrorToast "permission denied").description =
          .text (before ++ "permission denied" ++ after) :=
  ⟨validForm_sampleForm, rfl, by decide,
    submit_insert_failure_keeps_cart (sampleEnv (.error "permission denied")) sampleState
      sampleForm sampleCart "2024-05-01" "2024-05-01T00:00:00.000Z" "permission denied"
      validForm_sampleForm rfl (by decide) rfl rfl (Or.inl rfl)⟩

/-- C8: for a valid form whose date converts and a non-empty cart, when the remote
insert succeeds, the promise resolves with the cart empty, the mirror holding the
empty cart and no category selected; the success toast is emitted. -/
theorem submit_success_clears_cart (env : Env) (st : AppState)
    (formData : ReservationForm) (cart : Cart) (d iso : String)
    (hform : validForm formData) (hcart : st.cart = some cart) (hne : cart ≠ [])
    (hd : formData.date = some d) (hdate : env.dateISO d = some iso)
    (hins : env.insert (orderPayload env formData cart iso) = .ok) :
    ∃ st', handleReservationSubmit env st formData = .ok st' ∧
      st'.cart = some [] ∧
      st'.localStorage.getItem cartKey = some (jsonStringify []) ∧
      st'.selectedCategory = none ∧
      st'.toasts = st.toasts ++ [orderSentToast] := by
  have hv := handleReservationSubmit_valid env st formData cart d hform hcart hne hd
  rw [hdate] at hv
  simp only at hv
  rw [hins] at hv
  exact ⟨_, hv, rfl, getItem_setItem _ _ _, rfl, rfl⟩

/-- Witness for C8: the sample cart submitted against a store that accepts it. -/
theorem submit_success_clears_cart_witness :
    validForm sampleForm ∧ sampleState.cart = some sampleCart ∧ sampleCart ≠ [] ∧
    ∃ st', handleReservationSubmit (sampleEnv .ok) sampleState sampleForm = .ok st' ∧
      st'.cart = some [] ∧
      st'.localStorage.getItem cartKey = some (jsonStringify []) ∧
      st'.selectedCategory = none ∧
      st'.toasts = sampleState.toasts ++ [orderSentToast] :=
  ⟨validForm_sampleForm, rfl, by decide,
    submit_success_clears_cart (sampleEnv .ok) sampleState sampleForm sampleCart
      "2024-05-01" "2024-05-01T00:00:00.000Z" validForm_sampleForm rfl (by decide) rfl rfl rfl⟩

/-- The uncaught path: a form that passes the validation but whose date does not
convert makes the promise reject with `RangeError`; no toast is emitted and nothing
is sent. -/
theorem submit_invalid_date_rejects (env : Env) (st : AppState) (formData : ReservationForm)
    (cart : Cart) (d : String) (hform : validForm formData) (hcart : st.cart = some cart)
    (hne : cart ≠ []) (hd : formData.date = some d) (hdate : env.dateISO d = none) :
    handleReservationSubmit env st formData = .error .rangeError := by
  have hv := handleReservationSubmit_valid env st formData cart d hform hcart hne hd
  rw [hdate] at hv
  exact hv

/-- C10 at its failing input: the sample cart submitted with name and email filled in
and the date `demain` ends in a rejected promise carrying `RangeError`, not in a
resolved promise with a toast. -/
theorem submit_bad_date_escapes :
    handleReservationSubmit (sampleEnv .ok) sampleState badDateForm = .error .rangeError :=
  submit_invalid_date_rejects (sampleEnv .ok) sampleState badDateForm sampleCart "demain"
    validForm_badDateForm rfl (by decide) rfl rfl

theorem toJSON_eq_self_of_jsonSafe (v : JSValue) (h : v.jsonSafe = true) : v.toJSON = v := by
  cases v with
  | null => rfl
  | number n => cases n <;> simp_all [JSValue.jsonSafe, JSValue.toJSON]

theorem map_toJSON_eq_self (cart : Cart) (h : jsonSafeCart cart) :
    cart.map LineItem.toJSON = cart := by
  induction cart with
  | nil => rfl
  | cons item rest ih =>
    obtain ⟨hp, hq⟩ := h item (List.mem_cons_self _ _)
    rw [List.map_cons, ih (fun i hi => h i (List.mem_cons_of_mem _ hi))]
    simp [LineItem.toJSON, toJSON_eq_self_of_jsonSafe _ hp, toJSON_eq_self_of_jsonSafe _ hq]

/-- A fresh store mounted on a mirror written by `saveCart` holds the cart as
`JSON.stringify` wrote it. -/
theorem freshStore_of_mirror (storage : LocalStorage) (cart : Cart)
    (h : storage.getItem cartKey = some (jsonStringify cart)) :
    freshStore storage =
      .ok { AppState.initial storage with cart := some (cart.map LineItem.toJSON) } := by
  simp only [freshStore, hydrate, AppState.initial, h, jsonStringify, jsonParse]

/-- Every cart operation writes the serialization of the resulting cart under
`'ammu-cart'`, and when all prices and quantities of that cart are finite (or `null`),
a fresh store mounted on the mirror holds the same cart. -/
theorem persistence_round_trip (st : AppState) (cart : Cart) (op : CartOp)
    (h : st.cart = some cart) (hsafe : jsonSafeCart (cartAfter cart op)) :
    ∃ st' fresh, applyOp st op = .ok st' ∧
      st'.cart = some (cartAfter cart op) ∧
      st'.localStorage.getItem cartKey = some (jsonStringify (cartAfter cart op)) ∧
      freshStore st'.localStorage = .ok fresh ∧ fresh.cart = st'.cart := by
  obtain ⟨st', hop, hc, hm, -⟩ := applyOp_ok st cart op h
  refine ⟨st', _, hop, hc, hm, freshStore_of_mirror _ _ hm, ?_⟩
  simp only [hc, map_toJSON_eq_self _ hsafe]

set_option maxRecDepth 100000 in
/-- C9 at its failing input: after adding a pistol to the empty cart and setting its
quantity from a text of 310 digits, the session cart holds the quantity `Infinity`,
while a fresh store mounted on the mirror holds the quantity `null`. -/
theorem round_trip_loses_overflowed_quantity :
    (runOps (AppState.initial [])
        [.addItem pistol, .setQuantity "Pistol" hugeQuantity]).toOption.map
        (fun st => (st.cart, (freshStore st.localStorage).toOption.map (fun s => s.cart))) =
      some (some [{ name := "Pistol", price := .number (.int 500),
                    quantity := .number .posInf, attrs := [] }],
            some (some [{ name := "Pistol", price := .number (.int 500),
                          quantity := .null, attrs := [] }])) := by
  decide

end AmmuNation
